import Mathlib

/-
Verification of the tmancer tunnel supervisor against its specification.

The Go sources are shallowly embedded as executable Lean definitions:
  * `Status`, `K8sInfo`, `TunnelConfig`, `Tunnel` mirror the data model
    of internal/status.go and internal/tunnel.go.
  * `getCommand`, `GetPid`, `GetAge`, `isPortBusy`, `statusString` mirror
    the corresponding Go functions.
  * One iteration of the supervision loop body of `Tunnel.Start`
    (lock; select on ctx/ch; switch on status; unlock) is embedded as
    `stepIter`.  The outcomes of the environment interactions — whether
    the context is cancelled, whether a process-termination outcome is
    pending on the channel, whether the TCP listen succeeds, and the
    current monotonic time in nanoseconds — are passed in as oracles.
  * The channel `ch` is unbuffered and its only receiver is the
    supervision goroutine itself; a send executed by that same goroutine
    can never be matched, which `stepIter` reports as the
    `IterOutcome.blocked` outcome (the loop body never finishes).
-/

namespace Tmancer

/-- The status of a tunnel (internal/status.go).  Constructor order gives the
Go iota values 0..8. -/
inductive Status
  | Undefined
  | Close
  | Opening
  | Open
  | Error
  | Reopening
  | PortBusy
  | Signal
  | Cooper
deriving DecidableEq, Repr

/-- Iota value of each status constant, as the Go `Status` is an `int`. -/
def statusCode : Status → Int
  | Status.Undefined => 0
  | Status.Close => 1
  | Status.Opening => 2
  | Status.Open => 3
  | Status.Error => 4
  | Status.Reopening => 5
  | Status.PortBusy => 6
  | Status.Signal => 7
  | Status.Cooper => 8

/-- K8sInfo (internal/tunnel.go).  `nspace` embeds the Go field `Namespace`
(`namespace` is a Lean keyword). -/
structure K8sInfo where
  context : String
  nspace : String
  service : String
  port : Int
deriving DecidableEq, Repr

/-- TunnelConfig (internal/tunnel.go). -/
structure TunnelConfig where
  name : String
  k8s : Option K8sInfo
  custom : String
  localPort : Int
deriving DecidableEq, Repr

/-- The part of an exec.Cmd the supervisor observes: program, argument list,
and the `Process` handle (just its pid), `none` until the process starts. -/
structure Cmd where
  prog : String
  args : List String
  process : Option Int := none
deriving DecidableEq, Repr

/-- Go `strings.Split(s, " ")` on the character list: split on every single
space character, keeping empty fields.  Always returns a non-empty list. -/
def splitSpaces : List Char → List (List Char)
  | [] => [[]]
  | c :: rest =>
    if c = ' ' then [] :: splitSpaces rest
    else
      match splitSpaces rest with
      | [] => [[c]]
      | h :: t => (c :: h) :: t

/-- TunnelConfig.getCommand (internal/tunnel.go).  The k8s variant builds the
fixed kubectl port-forward invocation; the custom variant splits the raw
string on single spaces; with neither variant populated it fails. -/
def getCommand (c : TunnelConfig) : Except String Cmd :=
  match c.k8s with
  | some k =>
    let args := ["port-forward", "-n", k.nspace]
    let args := if k.context ≠ "" then args ++ ["--context", k.context] else args
    Except.ok ⟨"kubectl", args ++ [k.service, toString c.localPort ++ ":" ++ toString k.port], none⟩
  | none =>
    if c.custom ≠ "" then
      let parts := (splitSpaces c.custom.toList).map String.mk
      Except.ok ⟨parts.headD "", parts.tail, none⟩
    else
      Except.error "config is missing command information"

/-- Tunnel (internal/tunnel.go).  `startedAt` and all times are monotonic
nanosecond counts; the zero value stands for Go's zero time.Time. -/
structure Tunnel where
  cmd : Option Cmd
  err : Option String
  startedAt : Nat
  config : TunnelConfig
  status : Status
  startedFlag : Int
deriving DecidableEq, Repr

/-- NewTunnel (internal/tunnel.go). -/
def NewTunnel (config : TunnelConfig) : Tunnel :=
  { cmd := none, err := none, startedAt := 0, config := config
    status := Status.Close, startedFlag := 0 }

/-- Tunnel.GetPid (internal/tunnel.go): pid when `t.cmd != nil` and
`t.cmd.Process != nil`, else 0. -/
def GetPid (t : Tunnel) : Int :=
  match t.cmd with
  | some c =>
    match c.process with
    | some p => p
    | none => 0
  | none => 0

def nsPerSecond : Nat := 1000000000

/-- Go time.Duration.Round(time.Second) for a non-negative duration `d` in
nanoseconds: round to the nearest multiple of a second, half away from
zero. -/
def roundSecond (d : Nat) : Nat :=
  let r := d % nsPerSecond
  if r + r < nsPerSecond then d - r else d + (nsPerSecond - r)

/-- Tunnel.GetAge (internal/tunnel.go): while Open, the time since
`startedAt` rounded to seconds with valid = true; otherwise (0, false). -/
def GetAge (t : Tunnel) (now : Nat) : Nat × Bool :=
  if t.status = Status.Open then (roundSecond (now - t.startedAt), true)
  else (0, false)

/-- Outcome of the net.Listen("tcp", ":port") attempt, the one I/O the port
prober performs. -/
inductive ListenResult
  | ok
  | failed (e : String)
deriving DecidableEq, Repr

/-- Observable side effects of the port prober. -/
inductive NetOp
  | closeListener
deriving DecidableEq, Repr

/-- isPortBusy (internal/tunnel.go) together with its effect trace: on a
listen error report busy; on success close the listener and report free. -/
def isPortBusyRun : ListenResult → Bool × List NetOp
  | ListenResult.failed _ => (true, [])
  | ListenResult.ok => (false, [NetOp.closeListener])

/-- isPortBusy (internal/tunnel.go), result only. -/
def isPortBusy (r : ListenResult) : Bool := (isPortBusyRun r).1

/-- A character matched by the regex class `[a-z ]`. -/
def sigChar (c : Char) : Bool := (decide ('a' ≤ c) && decide (c ≤ 'z')) || c = ' '

/-- The literal part of signalRegex = `signal: ([a-z ]+)$`. -/
def sigMarker : List Char := "signal: ".toList

/-- Whether signalRegex matches starting exactly at the head of `l` (with `l`
running to the end of the subject): the literal "signal: " followed by a
non-empty run of `[a-z ]` characters reaching the end of the string. -/
def sigMatchAt (l : List Char) : Bool :=
  sigMarker.isPrefixOf l &&
    (let rest := l.drop sigMarker.length
     (!rest.isEmpty) && rest.all sigChar)

/-- Leftmost match of signalRegex: the first position whose suffix matches.
Because the pattern is anchored with `$`, a match is always a suffix of the
subject. -/
def sigFind : List Char → Option (List Char)
  | [] => none
  | c :: rest =>
    if sigMatchAt (c :: rest) then some (c :: rest) else sigFind rest

/-- signalRegex.MatchString. -/
def signalMatchString (s : String) : Bool := (sigFind s.toList).isSome

/-- signalRegex.FindString: the leftmost match, "" when there is none. -/
def signalFindString (s : String) : String :=
  match sigFind s.toList with
  | some l => String.mk l
  | none => ""

/-- The outcome the `select` statement at the top of a supervision iteration
observes: context cancelled, a process-termination outcome received from the
channel (`none` = the child exited with a nil error), or nothing pending. -/
inductive SelectCase
  | ctxDone
  | recv (e : Option String)
  | idle
deriving DecidableEq, Repr

/-- The `case err = <-ch` body of Tunnel.Start: classify a received
termination outcome.  A nil error gives Cooper (keeping the previous
`t.err`); an error matching signalRegex gives Signal with `t.err` reduced to
the matched phrase; any other error gives Error with the full text. -/
def classify (t : Tunnel) (e : Option String) : Tunnel :=
  match e with
  | none => { t with status := Status.Cooper }
  | some msg =>
    if signalMatchString msg then
      { t with status := Status.Signal, err := some (signalFindString msg) }
    else
      { t with status := Status.Error, err := some msg }

/-- How one iteration of the supervision loop body ends. `blocked` marks the
send `ch <- fmt.Errorf("get command: %w", err)`: `ch` is unbuffered and its
only receiver is this same goroutine, so the send never completes and the
loop body never finishes (still holding the lock). -/
inductive IterOutcome
  | next (t : Tunnel)
  | blocked (t : Tunnel)
  | stopped (t : Tunnel)
deriving DecidableEq, Repr

/-- The statuses of the `case Close, Reopening, Cooper, PortBusy` arm: those
leading to (re)opening the tunnel. -/
def relaunchState (s : Status) : Bool :=
  match s with
  | Status.Close | Status.Reopening | Status.Cooper | Status.PortBusy => true
  | _ => false

/-- The `switch t.status` statement of Tunnel.Start.  `r` is the outcome the
port probe's listen attempt would have, `now` the current time. -/
def dispatch (t : Tunnel) (r : ListenResult) (now : Nat) : IterOutcome :=
  match t.status with
  | Status.Close | Status.Reopening | Status.Cooper | Status.PortBusy =>
    if isPortBusy r then IterOutcome.next { t with status := Status.PortBusy }
    else
      match getCommand t.config with
      | Except.error _ => IterOutcome.blocked { t with cmd := none }
      | Except.ok c =>
        let t1 : Tunnel := { t with cmd := some c }
        if t1.status ≠ Status.Reopening then
          IterOutcome.next { t1 with status := Status.Opening }
        else
          IterOutcome.next { t1 with status := Status.Open, err := none, startedAt := now }
  | Status.Opening =>
    IterOutcome.next { t with status := Status.Open, err := none, startedAt := now }
  | Status.Error | Status.Signal =>
    IterOutcome.next { t with status := Status.Reopening }
  | Status.Undefined | Status.Open => IterOutcome.next t

/-- One full iteration of the `for` loop body of Tunnel.Start: the select
(classification of a pending outcome, or return on cancellation after
killing the child — the kill touches no modelled field), then the status
switch. -/
def stepIter (t : Tunnel) (sel : SelectCase) (r : ListenResult) (now : Nat) : IterOutcome :=
  match sel with
  | SelectCase.ctxDone => IterOutcome.stopped t
  | SelectCase.recv e => dispatch (classify t e) r now
  | SelectCase.idle => dispatch t r now

/-- The tunnel state carried by an iteration outcome. -/
def tunnelOf : IterOutcome → Tunnel
  | IterOutcome.next t => t
  | IterOutcome.blocked t => t
  | IterOutcome.stopped t => t

/-- Status at the end of an iteration. -/
def statusOf (o : IterOutcome) : Status := (tunnelOf o).status

/-- Last error at the end of an iteration. -/
def errOf (o : IterOutcome) : Option String := (tunnelOf o).err

/-- The `atomic.SwapInt32(&t.startedFlag, 1)` at the top of Tunnel.Start:
returns the updated tunnel and the flag's previous value. -/
def startSwap (t : Tunnel) : Tunnel × Int :=
  ({ t with startedFlag := 1 }, t.startedFlag)

/-- Whether a call to Tunnel.Start proceeds into the supervision loop:
it does exactly when the swapped-out previous flag value was 0. -/
def startEnters (t : Tunnel) : Bool := (startSwap t).2 == 0

/-- _Status_name (internal/status_string.go). -/
def StatusNameData : String := "UndefinedCloseOpeningOpenErrorReopeningPortBusySignalCooper"

/-- _Status_index (internal/status_string.go). -/
def StatusIndexData : List Nat := [0, 9, 14, 21, 25, 30, 39, 47, 53, 59]

/-- The Go slice _Status_name[a:b], as a total list slice. -/
def statusSlice (a b : Nat) : String :=
  String.mk ((StatusNameData.toList.drop a).take (b - a))

/-- Status.String (internal/status_string.go), on the underlying int: the
fallback "Status(<n>)" outside 0..8, otherwise the name slice. -/
def statusString (i : Int) : String :=
  if i < 0 ∨ 9 ≤ i then "Status(" ++ toString i ++ ")"
  else
    let n := i.toNat
    statusSlice (StatusIndexData.getD n 0) (StatusIndexData.getD (n + 1) 0)

/-- Modelled from the spec: "splits a raw user-supplied command string on
whitespace" — the whitespace-separated tokens of a string, used to state
claim C9's reading of the command builder (the source itself splits on the
single space character only). -/
def splitWs : List Char → List (List Char)
  | [] => [[]]
  | c :: rest =>
    if c.isWhitespace then [] :: splitWs rest
    else
      match splitWs rest with
      | [] => [[c]]
      | h :: t => (c :: h) :: t

/-- Modelled from the spec: the non-empty whitespace-separated tokens. -/
def wsTokens (s : String) : List String :=
  ((splitWs s.toList).filter (fun t => !t.isEmpty)).map String.mk

/-- Space-interleaved concatenation, the left inverse of `splitSpaces`. -/
def joinChars : List (List Char) → List Char
  | [] => []
  | [x] => x
  | x :: y :: t => x ++ ' ' :: joinChars (y :: t)

/-- A custom-command config, as in the spec's concrete scenario. -/
def cfgSleep : TunnelConfig :=
  { name := "alpha", k8s := none, custom := "sleep 9999", localPort := 7000 }

/-- A config with neither command variant populated. -/
def cfgNoCmd : TunnelConfig :=
  { name := "t", k8s := none, custom := "", localPort := 8080 }

/-- A custom command whose text contains a tab character. -/
def cfgTab : TunnelConfig :=
  { name := "x", k8s := none, custom := "a\tb", localPort := 1 }

/-- A custom command whose text contains two consecutive spaces. -/
def cfgTwoSpace : TunnelConfig :=
  { name := "d", k8s := none, custom := "echo  hi", localPort := 2 }

/-- A tunnel sitting in the Open status. -/
def tOpenEx : Tunnel :=
  { cmd := none, err := none, startedAt := 0, config := cfgSleep
    status := Status.Open, startedFlag := 1 }

/-- A tunnel sitting in the Opening status. -/
def tOpeningEx : Tunnel :=
  { cmd := none, err := none, startedAt := 0, config := cfgSleep
    status := Status.Opening, startedFlag := 1 }

/-- A tunnel sitting in the Reopening status. -/
def tReopenEx : Tunnel :=
  { cmd := none, err := some "old", startedAt := 3, config := cfgSleep
    status := Status.Reopening, startedFlag := 1 }

/-- An Open tunnel with a concrete startedAt, for observing GetAge. -/
def tAgeEx : Tunnel :=
  { cmd := none, err := none, startedAt := 1000000000, config := cfgSleep
    status := Status.Open, startedFlag := 1 }

/-- A tunnel with a live child process handle. -/
def tPidEx : Tunnel :=
  { cmd := some { prog := "sleep", args := ["9999"], process := some 4242 }
    err := none, startedAt := 0, config := cfgSleep
    status := Status.Open, startedFlag := 1 }

/-- A regex match found in a subject is a suffix of the subject. -/
theorem sigFind_suffix (l : List Char) :
    ∀ m, sigFind l = some m → ∃ pre, l = pre ++ m := by
  induction l with
  | nil => intro m h; exact absurd h (by simp [sigFind])
  | cons c rest ih =>
    intro m h
    by_cases hc : sigMatchAt (c :: rest) = true
    · rw [sigFind, if_pos hc] at h
      cases h
      exact ⟨[], rfl⟩
    · rw [sigFind, if_neg hc] at h
      obtain ⟨pre, hp⟩ := ih m h
      exact ⟨c :: pre, by rw [hp]; rfl⟩

/-- A regex match found in a subject does match the pattern at its head. -/
theorem sigFind_matchAt (l : List Char) :
    ∀ m, sigFind l = some m → sigMatchAt m = true := by
  induction l with
  | nil => intro m h; exact absurd h (by simp [sigFind])
  | cons c rest ih =>
    intro m h
    by_cases hc : sigMatchAt (c :: rest) = true
    · rw [sigFind, if_pos hc] at h
      cases h
      exact hc
    · rw [sigFind, if_neg hc] at h
      exact ih m h

/-- Go strings.Split never returns an empty slice. -/
theorem splitSpaces_ne_nil (l : List Char) : splitSpaces l ≠ [] := by
  cases l with
  | nil => simp [splitSpaces]
  | cons c rest =>
    simp only [splitSpaces]
    split
    · simp
    · split <;> simp

/-- Joining the space-split fields with single spaces restores the input:
`splitSpaces` loses no information. -/
theorem splitSpaces_join (l : List Char) : joinChars (splitSpaces l) = l := by
  induction l with
  | nil => rfl
  | cons c rest ih =>
    simp only [splitSpaces]
    by_cases hc : c = ' '
    · subst hc
      rw [if_pos rfl]
      cases hsp : splitSpaces rest with
      | nil => exact absurd hsp (splitSpaces_ne_nil rest)
      | cons h t =>
        show ' ' :: joinChars (h :: t) = ' ' :: rest
        rw [← hsp, ih]
    · rw [if_neg hc]
      cases hsp : splitSpaces rest with
      | nil => exact absurd hsp (splitSpaces_ne_nil rest)
      | cons h t =>
        cases t with
        | nil =>
          have hjoin : joinChars (h :: ([] : List (List Char))) = rest := by
            rw [← hsp]; exact ih
          simp only [joinChars] at hjoin ⊢
          rw [hjoin]
        | cons y t2 =>
          have hjoin : joinChars (h :: y :: t2) = rest := by
            rw [← hsp]; exact ih
          show (c :: h) ++ ' ' :: joinChars (y :: t2) = c :: rest
          rw [← hjoin]
          rfl

/-- Converting strings built from character lists back to character lists is
the identity. -/
theorem map_toList_mk (l : List (List Char)) :
    (l.map String.mk).map String.toList = l := by
  induction l with
  | nil => rfl
  | cons a b ih =>
    simp only [List.map_cons]
    rw [show String.toList (String.mk a) = a from rfl, ih]

/-- Rounding a nanosecond duration to whole seconds yields a multiple of a
second at most half a second away from the input. -/
theorem roundSecond_close (d : Nat) :
    roundSecond d % nsPerSecond = 0 ∧
    d ≤ roundSecond d + nsPerSecond / 2 ∧
    roundSecond d ≤ d + nsPerSecond / 2 := by
  have h : roundSecond d =
      if d % nsPerSecond + d % nsPerSecond < nsPerSecond
      then d - d % nsPerSecond else d + (nsPerSecond - d % nsPerSecond) := rfl
  rw [h]
  simp only [nsPerSecond]
  split <;> omega

/-- C1: at the failing input — a config with neither the K8s nor the Custom
variant populated, a fresh tunnel, port free — the command build fails, and
the iteration that hits the failure does not end with status Error: it
blocks forever on the unbuffered channel send (the supervision goroutine is
the channel's only receiver, so its own send can never complete) with the
status still Close; no retry ever happens and the status never becomes
Error or Open. -/
theorem c1_getCommand_deadlock :
    getCommand cfgNoCmd = Except.error "config is missing command information" ∧
    stepIter (NewTunnel cfgNoCmd) SelectCase.idle ListenResult.ok 0 =
      IterOutcome.blocked (NewTunnel cfgNoCmd) ∧
    statusOf (stepIter (NewTunnel cfgNoCmd) SelectCase.idle ListenResult.ok 0) = Status.Close ∧
    Status.Close ≠ Status.Error ∧ Status.Close ≠ Status.Open :=
  ⟨rfl, rfl, rfl, by decide, by decide⟩

/-- C2 counterexample: the iteration that receives the outcome
"signal: killed" ends with status Reopening, not Signal (the Signal →
Reopening move happens inside the same iteration's status switch), and the
following iteration (port free, command builds) ends with status Open, not
Reopening — so "the next iteration sets status to Reopening" fails. -/
theorem c2_counterexample :
    statusOf (stepIter tOpenEx (SelectCase.recv (some "signal: killed"))
      ListenResult.ok 5) = Status.Reopening ∧
    Status.Reopening ≠ Status.Signal ∧
    statusOf (stepIter (tunnelOf (stepIter tOpenEx
      (SelectCase.recv (some "signal: killed")) ListenResult.ok 5))
      SelectCase.idle ListenResult.ok 7) = Status.Open ∧
    Status.Open ≠ Status.Reopening :=
  ⟨rfl, by decide, rfl, by decide⟩

/-- C2 (amended): an iteration receiving a child-termination error matching
the signal pattern classifies it as Signal, with lastError reduced to the
matched suffix "signal: name" (all preceding wrapped error text and
captured output discarded), and the same iteration's status switch then
moves Signal to Reopening, so the iteration ends in Reopening and the
relaunch happens on the next iteration. -/
theorem c2_signal_classification (t : Tunnel) (e : String)
    (h : signalMatchString e = true) :
    (classify t (some e)).status = Status.Signal ∧
    (classify t (some e)).err = some (signalFindString e) ∧
    (∃ pre, e.toList = pre ++ (signalFindString e).toList) ∧
    sigMatchAt (signalFindString e).toList = true ∧
    (∀ r now, statusOf (stepIter t (SelectCase.recv (some e)) r now) = Status.Reopening) := by
  obtain ⟨m, hm⟩ : ∃ m, sigFind e.toList = some m := by
    have h2 := h
    unfold signalMatchString at h2
    exact Option.isSome_iff_exists.mp h2
  have hfind : signalFindString e = String.mk m := by
    unfold signalFindString
    rw [hm]
  refine ⟨by simp [classify, h], by simp [classify, h], ?_, ?_, ?_⟩
  · obtain ⟨pre, hp⟩ := sigFind_suffix _ _ hm
    exact ⟨pre, by rw [hfind]; exact hp⟩
  · rw [hfind]
    exact sigFind_matchAt _ _ hm
  · intro r now
    show statusOf (dispatch (classify t (some e)) r now) = Status.Reopening
    have hs : (classify t (some e)).status = Status.Signal := by simp [classify, h]
    unfold dispatch
    rw [hs]
    rfl

/-- C2 witness: the amended claim evaluated on the wrapped error text
"blah: signal: killed". -/
theorem c2_signal_classification_witness :
    (classify (NewTunnel cfgSleep) (some "blah: signal: killed")).err =
      some "signal: killed" ∧
    statusOf (stepIter (NewTunnel cfgSleep)
      (SelectCase.recv (some "blah: signal: killed")) ListenResult.ok 3) =
      Status.Reopening := by
  have h := c2_signal_classification (NewTunnel cfgSleep) "blah: signal: killed" (by decide)
  refine ⟨?_, h.2.2.2.2 ListenResult.ok 3⟩
  rw [h.2.1]
  decide

/-- C3: an iteration running in status Reopening with the port free and the
command built ends directly in Open (startedAt set, lastError cleared),
skipping the Opening display state; from the other relaunch states Close,
Cooper and PortBusy the same conditions end the iteration in Opening. -/
theorem c3_reopening_skips_opening (t : Tunnel) (c : Cmd) (r : ListenResult) (now : Nat)
    (hfree : isPortBusy r = false) (hcmd : getCommand t.config = Except.ok c) :
    (t.status = Status.Reopening →
      stepIter t SelectCase.idle r now =
        IterOutcome.next { t with cmd := some c, status := Status.Open
                                  err := none, startedAt := now }) ∧
    (t.status = Status.Close ∨ t.status = Status.Cooper ∨ t.status = Status.PortBusy →
      stepIter t SelectCase.idle r now =
        IterOutcome.next { t with cmd := some c, status := Status.Opening }) := by
  constructor
  · intro h
    show dispatch t r now = _
    unfold dispatch
    rw [h]
    simp [hfree, hcmd]
  · intro h
    show dispatch t r now = _
    unfold dispatch
    rcases h with h | h | h <;> rw [h] <;> simp [hfree, hcmd]

/-- C3 witness: a Reopening tunnel with the sleep config, free port, time
42, ends in Open with the launched command recorded. -/
theorem c3_witness :
    stepIter tReopenEx SelectCase.idle ListenResult.ok 42 =
      IterOutcome.next { tReopenEx with
        cmd := some { prog := "sleep", args := ["9999"], process := none }
        status := Status.Open, err := none, startedAt := 42 } :=
  (c3_reopening_skips_opening tReopenEx
    { prog := "sleep", args := ["9999"], process := none }
    ListenResult.ok 42 rfl rfl).1 rfl

/-- C4 counterexample: an iteration beginning in status Opening that
receives a pending non-signal termination error ends with status Reopening
(classified Error, then Error → Reopening inside the same iteration), not
Open — so "always ends with status Open" fails. -/
theorem c4_counterexample :
    statusOf (stepIter tOpeningEx (SelectCase.recv (some "exec failed"))
      ListenResult.ok 9) = Status.Reopening ∧
    errOf (stepIter tOpeningEx (SelectCase.recv (some "exec failed"))
      ListenResult.ok 9) = some "exec failed" ∧
    Status.Reopening ≠ Status.Open :=
  ⟨rfl, rfl, by decide⟩

/-- C4 (amended): an iteration that begins in status Opening, observes no
cancellation and receives no pending process-termination outcome always
ends in Open with startedAt set to the current time and lastError
cleared. -/
theorem c4_opening_to_open (t : Tunnel) (r : ListenResult) (now : Nat)
    (h : t.status = Status.Opening) :
    stepIter t SelectCase.idle r now =
      IterOutcome.next { t with status := Status.Open, err := none, startedAt := now } := by
  show dispatch t r now = _
  unfold dispatch
  rw [h]

/-- C4 witness: the amended claim evaluated on a concrete Opening tunnel. -/
theorem c4_opening_to_open_witness :
    stepIter tOpeningEx SelectCase.idle ListenResult.ok 11 =
      IterOutcome.next { tOpeningEx with
        status := Status.Open, err := none, startedAt := 11 } :=
  c4_opening_to_open tOpeningEx ListenResult.ok 11 rfl

/-- C5: the port prober reports free exactly when the listen acquisition
succeeds (closing the listener on success), busy on any acquisition
failure; and in a relaunch-state iteration a busy probe short-circuits the
iteration into PortBusy, leaving the stored command untouched and making no
launch attempt. -/
theorem c5_port_probe (r : ListenResult) (t : Tunnel) (now : Nat)
    (hb : relaunchState t.status = true) :
    (isPortBusy r = false ↔ r = ListenResult.ok) ∧
    (isPortBusyRun ListenResult.ok).2 = [NetOp.closeListener] ∧
    (isPortBusy r = true →
      stepIter t SelectCase.idle r now =
        IterOutcome.next { t with status := Status.PortBusy }) := by
  refine ⟨?_, rfl, ?_⟩
  · cases r <;> simp [isPortBusy, isPortBusyRun]
  · intro hbusy
    show dispatch t r now = _
    unfold dispatch
    cases ht : t.status <;> rw [ht] at hb <;>
      first
        | exact absurd hb (by decide)
        | simp [hbusy]

/-- C5 witness: a failed listen marks the port busy and a fresh tunnel's
iteration ends in PortBusy without launching. -/
theorem c5_witness :
    isPortBusy (ListenResult.failed "address already in use") = true ∧
    stepIter (NewTunnel cfgSleep) SelectCase.idle
      (ListenResult.failed "address already in use") 1 =
      IterOutcome.next { NewTunnel cfgSleep with status := Status.PortBusy } := by
  have h := c5_port_probe (ListenResult.failed "address already in use")
    (NewTunnel cfgSleep) 1 rfl
  exact ⟨by decide, h.2.2 rfl⟩

/-- C6: GetAge is valid exactly while the status is Open; in any other
status it returns duration 0 and valid = false; while Open the age is the
elapsed time since startedAt rounded to whole seconds — a non-negative
multiple of a second within half a second of the elapsed time. -/
theorem c6_age (t : Tunnel) (now : Nat) :
    ((GetAge t now).2 = true ↔ t.status = Status.Open) ∧
    (t.status ≠ Status.Open → GetAge t now = (0, false)) ∧
    (t.status = Status.Open →
      (GetAge t now).1 = roundSecond (now - t.startedAt) ∧
      (GetAge t now).1 % nsPerSecond = 0 ∧
      now - t.startedAt ≤ (GetAge t now).1 + nsPerSecond / 2 ∧
      (GetAge t now).1 ≤ now - t.startedAt + nsPerSecond / 2) := by
  refine ⟨⟨?_, ?_⟩, ?_, ?_⟩
  · intro hv
    by_contra h
    simp [GetAge, h] at hv
  · intro h
    simp [GetAge, h]
  · intro h
    simp [GetAge, h]
  · intro h
    simp only [GetAge, if_pos h]
    exact ⟨trivial, (roundSecond_close _).1, (roundSecond_close _).2.1,
      (roundSecond_close _).2.2⟩

/-- C6 witness: an Open tunnel started at t=1s observed at t=3.5s has a
valid age of 3s (2.5s rounded up); a fresh Close tunnel has (0, false). -/
theorem c6_age_witness :
    (GetAge tAgeEx 3500000000).2 = true ∧
    (GetAge tAgeEx 3500000000).1 = 3000000000 ∧
    GetAge (NewTunnel cfgSleep) 5 = (0, false) := by
  refine ⟨(c6_age tAgeEx 3500000000).1.mpr rfl, ?_,
    (c6_age (NewTunnel cfgSleep) 5).2.1 (by decide)⟩
  have h := ((c6_age tAgeEx 3500000000).2.2 rfl).1
  rw [h]
  decide

/-- C7: GetPid returns the child process's pid when a process handle is
present, and 0 whenever either the command or its process handle is
absent. -/
theorem c7_getpid (t : Tunnel) (p : Int) :
    ((∃ c, t.cmd = some c ∧ c.process = some p) → GetPid t = p) ∧
    (t.cmd = none → GetPid t = 0) ∧
    (∀ c, t.cmd = some c → c.process = none → GetPid t = 0) := by
  refine ⟨?_, ?_, ?_⟩
  · rintro ⟨c, hc, hp⟩
    simp [GetPid, hc, hp]
  · intro h
    simp [GetPid, h]
  · intro c hc hp
    simp [GetPid, hc, hp]

/-- C7 witness: a tunnel with a live process handle reports its pid 4242; a
fresh tunnel with no command reports 0. -/
theorem c7_getpid_witness :
    GetPid tPidEx = 4242 ∧ GetPid (NewTunnel cfgSleep) = 0 :=
  ⟨(c7_getpid tPidEx 4242).1 ⟨_, rfl, rfl⟩, (c7_getpid (NewTunnel cfgSleep) 0).2.1 rfl⟩

/-- C8: the one-shot startedFlag swap at the top of Start: a fresh tunnel's
first call enters the loop; any call after a call observes a non-zero
previous flag and returns immediately, leaving the whole tunnel state
unchanged — and the swap itself never touches status, error, command
handle, or config, so at most one supervision loop ever runs. -/
theorem c8_start_once (t : Tunnel) :
    startEnters (NewTunnel t.config) = true ∧
    (startSwap (startSwap t).1).2 = 1 ∧
    startEnters (startSwap t).1 = false ∧
    (startSwap (startSwap t).1).1 = (startSwap t).1 ∧
    (startSwap t).1.status = t.status ∧ (startSwap t).1.err = t.err ∧
    (startSwap t).1.cmd = t.cmd ∧ (startSwap t).1.config = t.config :=
  ⟨rfl, rfl, rfl, rfl, rfl, rfl, rfl, rfl⟩

/-- C9 counterexample: getCommand splits the Custom string on the single
space character only, not on whitespace: for Custom "a\tb" the program name
is the whole string "a\tb", not the first whitespace-separated token "a";
and for "echo  hi" the arguments keep an empty field, unlike the
whitespace-separated tokens. -/
theorem c9_counterexample :
    getCommand cfgTab = Except.ok { prog := "a\tb", args := [], process := none } ∧
    wsTokens cfgTab.custom = ["a", "b"] ∧
    ("a\tb" : String) ≠ "a" ∧
    getCommand cfgTwoSpace =
      Except.ok { prog := "echo", args := ["", "hi"], process := none } ∧
    wsTokens cfgTwoSpace.custom = ["echo", "hi"] :=
  ⟨rfl, by decide, by decide, rfl, by decide⟩

/-- C9 (amended): for a config with K8s unset and Custom non-empty,
getCommand deterministically and without error produces the fields of the
Custom string split on the single space character — program name first
field, arguments the remaining fields verbatim (consecutive spaces yield
empty-string fields, other whitespace is not a separator) — and joining
them back with single spaces restores the Custom string exactly. -/
theorem c9_custom_split (cfg : TunnelConfig) (h1 : cfg.k8s = none) (h2 : cfg.custom ≠ "") :
    ∃ prog args,
      getCommand cfg = Except.ok { prog := prog, args := args, process := none } ∧
      (prog :: args).map String.toList = splitSpaces cfg.custom.toList ∧
      joinChars ((prog :: args).map String.toList) = cfg.custom.toList := by
  obtain ⟨h0, t0, hsp⟩ : ∃ h0 t0, splitSpaces cfg.custom.toList = h0 :: t0 := by
    cases hs : splitSpaces cfg.custom.toList with
    | nil => exact absurd hs (splitSpaces_ne_nil _)
    | cons a b => exact ⟨a, b, rfl⟩
  have hmap : (String.mk h0 :: t0.map String.mk).map String.toList =
      splitSpaces cfg.custom.toList := by
    rw [hsp]
    exact map_toList_mk (h0 :: t0)
  refine ⟨String.mk h0, t0.map String.mk, ?_, hmap, ?_⟩
  · have hgc : getCommand cfg =
        Except.ok ⟨((splitSpaces cfg.custom.toList).map String.mk).headD "",
          ((splitSpaces cfg.custom.toList).map String.mk).tail, none⟩ := by
      simp [getCommand, h1, h2]
    rw [hgc, hsp]
    rfl
  · rw [hmap, splitSpaces_join]

/-- C9 witness: the amended claim evaluated on the config with Custom
"sleep 9999". -/
theorem c9_custom_split_witness :
    ∃ prog args,
      getCommand cfgSleep = Except.ok { prog := prog, args := args, process := none } ∧
      (prog :: args).map String.toList = splitSpaces cfgSleep.custom.toList ∧
      joinChars ((prog :: args).map String.toList) = cfgSleep.custom.toList :=
  c9_custom_split cfgSleep rfl (by decide)

/-- C10: Status.String is total: each of the nine defined status values
maps to its name, and every other integer (negative values included) maps
to the fallback form "Status(<n>)", with the name-table slicing total. -/
theorem c10_status_string (i : Int) :
    statusString (statusCode Status.Undefined) = "Undefined" ∧
    statusString (statusCode Status.Close) = "Close" ∧
    statusString (statusCode Status.Opening) = "Opening" ∧
    statusString (statusCode Status.Open) = "Open" ∧
    statusString (statusCode Status.Error) = "Error" ∧
    statusString (statusCode Status.Reopening) = "Reopening" ∧
    statusString (statusCode Status.PortBusy) = "PortBusy" ∧
    statusString (statusCode Status.Signal) = "Signal" ∧
    statusString (statusCode Status.Cooper) = "Cooper" ∧
    (i < 0 ∨ 9 ≤ i → statusString i = "Status(" ++ toString i ++ ")") := by
  refine ⟨by decide, by decide, by decide, by decide, by decide, by decide,
    by decide, by decide, by decide, ?_⟩
  intro h
  unfold statusString
  rw [if_pos h]

/-- C10 witness: the fallback form evaluated at the out-of-range values -5
and 11. -/
theorem c10_status_string_witness :
    statusString (-5) = "Status(" ++ toString (-5 : Int) ++ ")" ∧
    statusString 11 = "Status(" ++ toString (11 : Int) ++ ")" :=
  ⟨(c10_status_string (-5)).2.2.2.2.2.2.2.2.2 (Or.inl (by decide)),
   (c10_status_string 11).2.2.2.2.2.2.2.2.2 (Or.inr (by decide))⟩

end Tmancer
